import Mathlib

/-!
Shallow embedding of the booking/entitlement engine of the bluedreamBE
repository (Express + Prisma backend).

Sources embedded here:
* `prisma/migrations/20251129221402_init/migration.sql` — enums and the
  `Subscription` table definition (columns and constraints, as data).
* `utils/dateRules.js` (revision selecting the `date` field) — `getNowItaly`
  produces a local civil time, `stripTime` drops the time-of-day; the cutoff
  checks `canBookEventByEventId` / `canCancelEventByEventId`.
* `utils/subscription.js` — `createSubscriptionWithGroups`,
  `hasValidSubscription`, and (revision with the credit check, imported by the
  user routes together with `getEventMinLevel`) `canBookEvent`.
* `config/eventRules.js` — both revisions of `LEVEL_HIERARCHY`, the
  `DEFAULT_RULE`, and the `eventRules` category table.
* `routes/user.js` (revision with the `$transaction` blocks) —
  `router.post('/events/book')` and `router.post('/events/cancel')`.

Modelling conventions:
* Machine time is an integer number of minutes in the club's local civil
  timezone (`Europe/Rome`); a JS `Date` run through `stripTime` keeps only the
  day component, `getHours()` is the hour within the day.
* Database tables are Lean lists of rows; `findFirst`/`findUnique` is
  `List.find?`, `findMany`-with-`where` is `List.filter`, `create` appends,
  `update where id` maps over the list, `delete` on the unique key filters.
* A Prisma interactive transaction that throws rolls back: an operation
  returns `Except e DB`, and the `.error` case leaves the store unchanged.
-/

namespace BlueDream

/-- `GroupLevel` enum from `migration.sql`: `('ALL','OPEN','ADVANCED','DEPTH')`. -/
inductive GroupLevel
  | ALL | OPEN | ADVANCED | DEPTH
  deriving DecidableEq, Repr

/-- `SubscriptionStatus` enum from `migration.sql`. -/
inductive SubscriptionStatus
  | PENDING | ACTIVE | EXPIRED | CANCELLED
  deriving DecidableEq, Repr

/-- `EventStatus` enum from `migration.sql`. -/
inductive EventStatus
  | SCHEDULED | CANCELLED
  deriving DecidableEq, Repr

/-- The four SQL string literals of the `GroupLevel` enum, in declaration
order (`migration.sql` line `CREATE TYPE "GroupLevel" AS ENUM (...)`). -/
def groupLevelNames : List String := ["ALL", "OPEN", "ADVANCED", "DEPTH"]

/-- The SQL name of a `GroupLevel` value. -/
def GroupLevel.name : GroupLevel → String
  | .ALL => "ALL"
  | .OPEN => "OPEN"
  | .ADVANCED => "ADVANCED"
  | .DEPTH => "DEPTH"

/-- All `GroupLevel` values. -/
def groupLevels : List GroupLevel := [.ALL, .OPEN, .ADVANCED, .DEPTH]

/-! ## Local civil time

A time is a number of minutes in the `Europe/Rome` civil timeline, as produced
by `getNowItaly()`.  `stripTime` keeps the day, `getHours()` the hour. -/

/-- Day component of a local time, as `stripTime` computes it. -/
def dayOf (t : ℤ) : ℤ := t.ediv 1440

/-- Hour component of a local time, as `Date.getHours()` returns it. -/
def hourOf (t : ℤ) : ℤ := (t.emod 1440).ediv 60

/-- Build a local time from day, hour and minute. -/
def mkTime (day hour minute : ℤ) : ℤ := day * 1440 + hour * 60 + minute

/-! ## Rows and the store -/

/-- A `Subscription` row (`migration.sql`): `ingressi` is the credit
balance, the validity window is `[startDate, endDate]` as the queries use it. -/
structure Subscription where
  id : ℕ
  userId : String
  startDate : ℤ
  endDate : ℤ
  amount : ℤ
  ingressi : ℤ
  currency : String
  status : SubscriptionStatus
  deriving DecidableEq, Repr

/-- A `Group` row: a named access tier. -/
structure Group where
  id : ℕ
  name : String
  level : GroupLevel
  deriving DecidableEq, Repr

/-- A `UserGroup` row (the GroupMembership relation). -/
structure UserGroup where
  userId : String
  groupId : ℕ
  subscriptionId : ℕ
  validFrom : ℤ
  validTo : ℤ
  isActive : Bool
  deriving DecidableEq, Repr

/-- An `Event` row; `categoryCode` inlines the `EventCategory.code` the event's
`categoryId` refers to (the code always reads it through the `category`
include, and the foreign key is `NOT NULL` + `RESTRICT`). -/
structure Event where
  id : ℕ
  date : ℤ
  maxSlots : ℤ
  status : EventStatus
  categoryCode : String
  deriving DecidableEq, Repr

/-- An `EventSignup` row; the store enforces `UNIQUE ("userId","eventId")`. -/
structure Signup where
  userId : String
  eventId : ℕ
  deriving DecidableEq, Repr

/-- The transactional store: one list per table. -/
structure DB where
  events : List Event
  subs : List Subscription
  groups : List Group
  userGroups : List UserGroup
  signups : List Signup
  deriving DecidableEq, Repr

/-- Equality of `Except` results is decidable, so concrete runs of the engine
can be checked by evaluation. -/
instance instDecEqExcept {e a : Type} [DecidableEq e] [DecidableEq a] :
    DecidableEq (Except e a) := fun x y =>
  match x, y with
  | .error u, .error v => decidable_of_iff (u = v) (by simp)
  | .ok u, .ok v => decidable_of_iff (u = v) (by simp)
  | .error _, .ok _ => isFalse (by simp)
  | .ok _, .error _ => isFalse (by simp)

/-- `prisma.event.findUnique({ where: { id: eventId } })`. -/
def findEvent (db : DB) (eventId : ℕ) : Option Event :=
  db.events.find? (fun ev => ev.id == eventId)

/-- The signups of one event (the `signups` include on the event). -/
def signupsFor (db : DB) (eventId : ℕ) : List Signup :=
  db.signups.filter (fun sg => sg.eventId == eventId)

/-- `event.signups.length`. -/
def signupCount (db : DB) (eventId : ℕ) : ℕ :=
  (signupsFor db eventId).length

/-- Whether an `EventSignup` row for `(userId, eventId)` exists — the pair the
`UNIQUE ("userId","eventId")` constraint guards. -/
def hasSignup (db : DB) (userId : String) (eventId : ℕ) : Bool :=
  db.signups.any (fun sg => sg.userId == userId && sg.eventId == eventId)

/-- `prisma.subscription.findFirst` with the Book filter: the member's
currently `ACTIVE` subscription whose `[startDate, endDate]` window contains
`now` (`startDate: { lte: now }, endDate: { gte: now }`). -/
def activeSub (db : DB) (userId : String) (now : ℤ) : Option Subscription :=
  db.subs.find? (fun s =>
    s.userId == userId && s.status == .ACTIVE &&
    decide (s.startDate ≤ now) && decide (now ≤ s.endDate))

/-! ## Eligibility rule table (`config/eventRules.js`)

The repository carries two revisions of `LEVEL_HIERARCHY`.  The first keys the
table on `ALL / OPEN / ADVANCED / DEPTH` (matching the `GroupLevel` enum) and
lets `ADVANCED` subsume `OPEN` and `DEPTH` subsume `ADVANCED` and `OPEN`.  The
second keys it on `ALL / OPEN / ADVANCED / DEEP` and lets each non-`ALL` tier
subsume only `ALL`.  `canBookEvent` indexes the table by a `GroupLevel` value,
so the first revision is the one that is total on the enum; it is the one the
booking pipeline below uses. -/

/-- First revision of `LEVEL_HIERARCHY`, as the function `canBookEvent`
applies to a `group.level` value. -/
def LEVEL_HIERARCHY : GroupLevel → List GroupLevel
  | .ALL => [.ALL]
  | .OPEN => [.OPEN]
  | .ADVANCED => [.ADVANCED, .OPEN]
  | .DEPTH => [.DEPTH, .ADVANCED, .OPEN]

/-- First revision of `LEVEL_HIERARCHY` as the literal object: keys and value
arrays are the strings written in the source. -/
def levelHierarchyRev1 : List (String × List String) :=
  [("ALL", ["ALL"]),
   ("OPEN", ["OPEN"]),
   ("ADVANCED", ["ADVANCED", "OPEN"]),
   ("DEPTH", ["DEPTH", "ADVANCED", "OPEN"])]

/-- Second revision of `LEVEL_HIERARCHY` as the literal object.  Its keys and
the identifiers in its value arrays use `DEEP`, which is not a value of the
`GroupLevel` enum the migration creates. -/
def levelHierarchyRev2 : List (String × List String) :=
  [("ALL", ["ALL"]),
   ("OPEN", ["OPEN", "ALL"]),
   ("ADVANCED", ["ADVANCED", "ALL"]),
   ("DEEP", ["DEEP", "ALL"])]

/-- A category policy: `requiresSubscription`, `allowedLevels`, and the
(everywhere absent) `requiredGroups` list that `canBookEvent` probes with
`rule.requiredGroups?.length`. -/
structure Rule where
  requiresSubscription : Bool
  allowedLevels : List GroupLevel
  requiredGroups : List String
  deriving DecidableEq, Repr

/-- `DEFAULT_RULE`: subscription required, every level allowed. -/
def DEFAULT_RULE : Rule :=
  ⟨true, [.ALL, .OPEN, .ADVANCED, .DEPTH], []⟩

/-- The `eventRules` category table (revision spelling the top tier `DEPTH`,
consistent with the enum).  No entry sets `requiredGroups`. -/
def eventRules : String → Option Rule
  | "TRY_DIVE" => some ⟨false, [.ALL], []⟩
  | "COURSE_OPEN" => some ⟨true, [.OPEN], []⟩
  | "COURSE_ADVANCED" => some ⟨true, [.ADVANCED], []⟩
  | "COURSE_DEPTH" => some ⟨true, [.DEPTH], []⟩
  | "TRAINING_ALL" => some ⟨true, [.ALL], []⟩
  | "TRAINING_OPEN" => some ⟨true, [.OPEN], []⟩
  | "TRAINING_ADVANCED" => some ⟨true, [.ADVANCED], []⟩
  | "TRAINING_DEPTH" => some ⟨true, [.DEPTH], []⟩
  | "OPEN_WATER_OPEN" => some ⟨true, [.OPEN], []⟩
  | "OPEN_WATER_ADVANCE" => some ⟨true, [.ADVANCED], []⟩
  | "OPEN_WATER_DEPTH" => some ⟨true, [.DEPTH], []⟩
  | "Y40_ALL" => some ⟨true, [.ALL], []⟩
  | "Y40_OPEN" => some ⟨true, [.OPEN], []⟩
  | "Y40_ADVANCED" => some ⟨true, [.ADVANCED], []⟩
  | "Y40_DEPTH" => some ⟨true, [.DEPTH], []⟩
  | "EVENT_SPECIAL_FREE" => some ⟨false, [.ALL], []⟩
  | "EVENT_SPECIAL" => some ⟨true, [.ALL], []⟩
  | "EVENT_SPECIAL_OPEN" => some ⟨true, [.OPEN], []⟩
  | "EVENT_SPECIAL_ADVANCED" => some ⟨true, [.ADVANCED], []⟩
  | "EVENT_SPECIAL_DEPTH" => some ⟨true, [.DEPTH], []⟩
  | _ => none

/-- `eventRules[event.category.code] || DEFAULT_RULE`. -/
def ruleFor (categoryCode : String) : Rule :=
  (eventRules categoryCode).getD DEFAULT_RULE

/-! ## Cutoff policy (`utils/dateRules.js`) -/

/-- Rejection reasons of the Book pipeline; each constructor carries the
Italian message the route returns.
* `eventoNonTrovato` — "Evento non trovato"
* `prenotaPassato` — "Non puoi prenotare eventi passati"
* `prenotaDopo18` — "Non puoi prenotare eventi del giorno corrente dopo le 18:00"
* `eventoNonDisponibile` — "Evento non disponibile"
* `eventoPieno` — "Evento pieno"
* `ingressiInsufficienti` — "Non hai più ingressi disponibili" from
  `canBookEvent` (the revision whose early return misspells the key as
  `canUse: false`, which the route still reads as a falsy `canBook`) and
  "Ingressi insufficienti" from the transaction
* `subscriptionNonValida` — "Subscription non valida"
* `livelloNonAutorizzato` — "Livello utente non autorizzato per questo evento"
* `giaPrenotato` — "Sei già prenotato" (the unique-constraint violation) -/
inductive BookError
  | eventoNonTrovato
  | prenotaPassato
  | prenotaDopo18
  | eventoNonDisponibile
  | eventoPieno
  | ingressiInsufficienti
  | subscriptionNonValida
  | livelloNonAutorizzato
  | giaPrenotato
  deriving DecidableEq, Repr

/-- Rejection reasons of the Cancel pipeline. -/
inductive CancelError
  | eventoNonTrovato
  | disdiciPassato
  | disdiciDopo18
  | prenotazioneNonTrovata
  | subscriptionAttivaNonTrovata
  deriving DecidableEq, Repr

/-- `canBookEventByEventId` from `utils/dateRules.js`: load the event's
`date`, then reject past days and the current day from 18:00 local time on.
`none` is `{ canBook: true }`. -/
def canBookEventByEventId (db : DB) (eventId : ℕ) (now : ℤ) : Option BookError :=
  match findEvent db eventId with
  | none => some .eventoNonTrovato
  | some ev =>
    if ev.date < dayOf now then some .prenotaPassato
    else if ev.date = dayOf now ∧ 18 ≤ hourOf now then some .prenotaDopo18
    else none

/-- `canCancelEventByEventId` from `utils/dateRules.js`: the same date rule
with the cancel messages. -/
def canCancelEventByEventId (db : DB) (eventId : ℕ) (now : ℤ) : Option CancelError :=
  match findEvent db eventId with
  | none => some .eventoNonTrovato
  | some ev =>
    if ev.date < dayOf now then some .disdiciPassato
    else if ev.date = dayOf now ∧ 18 ≤ hourOf now then some .disdiciDopo18
    else none

/-! ## Entitlement resolver and eligibility (`utils/subscription.js`) -/

/-- `hasValidSubscription`: `prisma.userGroup.findFirst` for an `isActive` row
of the member whose `[validFrom, validTo]` window contains `now`
(`validFrom: { lte: now }, validTo: { gte: now }`), coerced to a boolean. -/
def hasValidSubscription (db : DB) (userId : String) (now : ℤ) : Bool :=
  (db.userGroups.find? (fun ug =>
    ug.userId == userId && decide (ug.validFrom ≤ now) &&
    decide (now ≤ ug.validTo) && ug.isActive)).isSome

/-- The `userGroup.findMany` filter of `canBookEvent`: the member's rows that
are `isActive` with `now` inside the closed `[validFrom, validTo]` window. -/
def activeUserGroups (db : DB) (userId : String) (now : ℤ) : List UserGroup :=
  db.userGroups.filter (fun ug =>
    ug.userId == userId && ug.isActive &&
    decide (ug.validFrom ≤ now) && decide (now ≤ ug.validTo))

/-- `[...new Set(xs)]`: deduplication keeping the first occurrence, as a JS
`Set` built from an array does. -/
def jsDedup (l : List GroupLevel) : List GroupLevel :=
  l.foldl (fun acc a => if a ∈ acc then acc else acc ++ [a]) []

/-- The tier set `canBookEvent` computes: map each qualifying membership row
to its group's `level` (the `group` include resolved through the `Group`
table), expand each level through `LEVEL_HIERARCHY`, and deduplicate. -/
def resolvedTiers (db : DB) (userId : String) (now : ℤ) : List GroupLevel :=
  jsDedup (((activeUserGroups db userId now).filterMap (fun ug =>
    (db.groups.find? (fun g => g.id == ug.groupId)).map (fun g => g.level))).flatMap
      LEVEL_HIERARCHY)

/-- `canBookEvent` (the revision with the credit check, the one the user
routes load together with `getEventMinLevel`): event present → `SCHEDULED` → free
slot → positive `ingressi` on the active subscription → category rule
(`requiresSubscription`, the dead `requiredGroups` probe, `allowedLevels`
against the resolved tiers).  `none` is `{ canBook: true }`. -/
def canBookEvent (db : DB) (userId : String) (eventId : ℕ) (now : ℤ) : Option BookError :=
  match findEvent db eventId with
  | none => some .eventoNonTrovato
  | some ev =>
    if ev.status ≠ .SCHEDULED then some .eventoNonDisponibile
    else if (signupCount db eventId : ℤ) ≥ ev.maxSlots then some .eventoPieno
    else
      let availableIngressi := ((activeSub db userId now).map (fun s => s.ingressi)).getD 0
      if availableIngressi ≤ 0 then some .ingressiInsufficienti
      else
        let rule := ruleFor ev.categoryCode
        let uniqueUserLevels := resolvedTiers db userId now
        if rule.requiresSubscription && !hasValidSubscription db userId now then
          some .subscriptionNonValida
        else if rule.requiredGroups ≠ [] ∧
            ¬ rule.requiredGroups.any (fun rg =>
              ((db.userGroups.filter (fun ug => ug.userId == userId && ug.isActive)).filterMap
                (fun ug => (db.groups.find? (fun g => g.id == ug.groupId)).map
                  (fun g => g.name))).contains rg) then
          some .livelloNonAutorizzato
        else if ¬ rule.allowedLevels.any (fun l => uniqueUserLevels.contains l) then
          some .livelloNonAutorizzato
        else none

/-! ## Reservation transactions (`routes/user.js`, the `$transaction` revision) -/

/-- The two writes of the Book transaction: `tx.eventSignup.create({ data:
{ userId, eventId } })` and `tx.subscription.update({ where: { id }, data:
{ ingressi: { decrement: 1 } } })`. -/
def applyBookWrites (db : DB) (userId : String) (eventId : ℕ) (subId : ℕ) : DB :=
  { db with
    signups := db.signups ++ [⟨userId, eventId⟩],
    subs := db.subs.map (fun s =>
      if s.id == subId then { s with ingressi := s.ingressi - 1 } else s) }

/-- The body of the Book `$transaction`: re-read the event with its signups,
require `SCHEDULED` and a free slot, re-read the active subscription, require
positive `ingressi`, insert the signup (the `UNIQUE ("userId","eventId")`
constraint turns a duplicate into the "Sei già prenotato" rejection), and
decrement `ingressi`.  A throw rolls the transaction back, so the `.error`
cases return no store. -/
def bookTx (db : DB) (userId : String) (eventId : ℕ) (now : ℤ) : Except BookError DB :=
  match findEvent db eventId with
  | none => .error .eventoNonDisponibile
  | some ev =>
    if ev.status ≠ .SCHEDULED then .error .eventoNonDisponibile
    else if (signupCount db eventId : ℤ) ≥ ev.maxSlots then .error .eventoPieno
    else
      match activeSub db userId now with
      | none => .error .ingressiInsufficienti
      | some sub =>
        if sub.ingressi ≤ 0 then .error .ingressiInsufficienti
        else if hasSignup db userId eventId then .error .giaPrenotato
        else .ok (applyBookWrites db userId eventId sub.id)

/-- `router.post('/events/book')`: the cutoff check, the advisory
`canBookEvent` check, then the transaction. -/
def book (db : DB) (userId : String) (eventId : ℕ) (now : ℤ) : Except BookError DB :=
  match canBookEventByEventId db eventId now with
  | some e => .error e
  | none =>
    match canBookEvent db userId eventId now with
    | some e => .error e
    | none => bookTx db userId eventId now

/-- `router.post('/events/cancel')`: the cutoff check, then a transaction that
deletes the signup by its unique `(userId, eventId)` key (a missing row makes
the delete throw), finds the member's first `ACTIVE` subscription (no window
filter here), and increments its `ingressi`. -/
def cancel (db : DB) (userId : String) (eventId : ℕ) (now : ℤ) : Except CancelError DB :=
  match canCancelEventByEventId db eventId now with
  | some e => .error e
  | none =>
    if ¬ hasSignup db userId eventId then .error .prenotazioneNonTrovata
    else
      let db1 : DB := { db with
        signups := db.signups.filter (fun sg =>
          !(sg.userId == userId && sg.eventId == eventId)) }
      match db1.subs.find? (fun s => s.userId == userId && s.status == .ACTIVE) with
      | none => .error .subscriptionAttivaNonTrovata
      | some sub =>
        .ok { db1 with subs := db1.subs.map (fun s =>
          if s.id == sub.id then { s with ingressi := s.ingressi + 1 } else s) }

/-! ## Subscription creation (`utils/subscription.js`) -/

/-- The `ISO_CURRENCIES` whitelist. -/
def ISO_CURRENCIES : List String := ["EUR", "USD", "GBP", "CHF"]

/-- `createSubscriptionWithGroups`: validate the input (`endDate` after
`startDate`, positive `amount`, whitelisted `currency`; the `status` field is
already a typed enum value here, which is what the zod refinement against
`SubscriptionStatus` intends), then in one transaction move every `ACTIVE`
subscription of the member to `CANCELLED` with `endDate` set to `now`, insert
the new subscription (`newId` is the `SERIAL` id the store assigns, `ingressi`
takes the schema default 32 because this revision passes none), and insert one
`isActive` `UserGroup` row per requested group inheriting the subscription's
window. -/
def createSubscriptionWithGroups (db : DB) (userId : String)
    (startDate endDate amount : ℤ) (currency : String)
    (status : SubscriptionStatus) (groups : List ℕ)
    (now : ℤ) (newId : ℕ) : Except String DB :=
  if ¬ (startDate < endDate) then .error "endDate must be after startDate"
  else if ¬ (0 < amount) then .error "amount must be positive"
  else if ¬ ISO_CURRENCIES.contains currency then .error "Currency not valid (ISO 4217)"
  else
    let cancelled := db.subs.map (fun s =>
      if s.userId == userId && s.status == .ACTIVE then
        { s with status := .CANCELLED, endDate := now }
      else s)
    let newSub : Subscription :=
      ⟨newId, userId, startDate, endDate, amount, 32, currency, status⟩
    let newUserGroups := groups.map (fun gid =>
      (⟨userId, gid, newId, startDate, endDate, true⟩ : UserGroup))
    .ok { db with
      subs := cancelled ++ [newSub],
      userGroups := db.userGroups ++ newUserGroups }

/-! ## The `Subscription` table of `migration.sql`, as schema data -/

/-- A column of a `CREATE TABLE` statement: name, SQL type, and whether the
declaration attaches `NOT NULL` or a `DEFAULT`. -/
structure ColumnDef where
  name : String
  sqlType : String
  notNull : Bool
  hasDefault : Bool
  deriving DecidableEq, Repr

/-- A table-level constraint of a `CREATE TABLE` statement. -/
inductive TableConstraint
  | primaryKey (cols : List String)
  | foreignKey (name : String) (cols : List String) (refTable : String)
  | uniqueKey (name : String) (cols : List String)
  | check (name : String) (expr : String)
  deriving DecidableEq, Repr

/-- Whether a constraint is a `CHECK` constraint. -/
def TableConstraint.isCheck : TableConstraint → Bool
  | .check _ _ => true
  | _ => false

/-- A `CREATE TABLE` statement: columns and constraints. -/
structure TableDef where
  name : String
  columns : List ColumnDef
  constraints : List TableConstraint
  deriving DecidableEq, Repr

/-- The `CREATE TABLE "Subscription"` statement of
`20251129221402_init/migration.sql`, transcribed column by column.  The
`PRIMARY KEY` on `id` and the foreign key on `userId` are its only
constraints. -/
def subscriptionTable : TableDef :=
  { name := "Subscription",
    columns :=
      [⟨"id", "SERIAL", true, false⟩,
       ⟨"userId", "TEXT", true, false⟩,
       ⟨"startDate", "TIMESTAMP(3)", true, false⟩,
       ⟨"endDate", "TIMESTAMP(3)", true, false⟩,
       ⟨"amount", "FLOAT", true, false⟩,
       ⟨"ingressi", "INT", true, true⟩,
       ⟨"currency", "TEXT", true, true⟩,
       ⟨"status", "SubscriptionStatus", true, true⟩,
       ⟨"paymentRef", "TEXT", false, false⟩,
       ⟨"createdAt", "TIMESTAMP(3)", true, true⟩],
    constraints :=
      [.primaryKey ["id"],
       .foreignKey "Subscription_userId_fkey" ["userId"] "User"] }

/-- The `CREATE TABLE "EventSignup"` statement of the same migration: primary
key, two foreign keys, and the `UNIQUE ("userId","eventId")` constraint. -/
def eventSignupTable : TableDef :=
  { name := "EventSignup",
    columns :=
      [⟨"id", "SERIAL", true, false⟩,
       ⟨"userId", "TEXT", true, false⟩,
       ⟨"eventId", "INTEGER", true, false⟩,
       ⟨"createdAt", "TIMESTAMP(3)", true, true⟩],
    constraints :=
      [.primaryKey ["id"],
       .foreignKey "EventSignup_userId_fkey" ["userId"] "User",
       .foreignKey "EventSignup_eventId_fkey" ["eventId"] "Event",
       .uniqueKey "EventSignup_userId_eventId_key" ["userId", "eventId"]] }

/-! ## Spec-side comparison definitions -/

/-- Modelled from the spec: Book's preconditions as the spec orders them —
(1) cutoff permits, (2) event exists and is `SCHEDULED`, (3) signup count
strictly below `maxSlots`, (4) the member's currently `ACTIVE` subscription
with window containing `now` has positive credit, (5) the category rule is
satisfied, (6) no existing signup — rejecting with the reason of the first
failing step, leaving the store unchanged on every rejection, and otherwise
creating the signup and decrementing the credit by one.  A missing event makes
step 2 the first failing step (the cutoff cannot be evaluated without the
event's date). -/
def bookSpecOrdered (db : DB) (userId : String) (eventId : ℕ) (now : ℤ) :
    Except BookError DB :=
  match findEvent db eventId with
  | none => .error .eventoNonTrovato
  | some ev =>
    if ev.date < dayOf now then .error .prenotaPassato
    else if ev.date = dayOf now ∧ 18 ≤ hourOf now then .error .prenotaDopo18
    else if ev.status ≠ .SCHEDULED then .error .eventoNonDisponibile
    else if (signupCount db eventId : ℤ) ≥ ev.maxSlots then .error .eventoPieno
    else
      match activeSub db userId now with
      | none => .error .ingressiInsufficienti
      | some sub =>
        if sub.ingressi ≤ 0 then .error .ingressiInsufficienti
        else if (ruleFor ev.categoryCode).requiresSubscription &&
            !hasValidSubscription db userId now then
          .error .subscriptionNonValida
        else if ¬ (ruleFor ev.categoryCode).allowedLevels.any
            (fun l => (resolvedTiers db userId now).contains l) then
          .error .livelloNonAutorizzato
        else if hasSignup db userId eventId then .error .giaPrenotato
        else .ok (applyBookWrites db userId eventId sub.id)

/-- Modelled from the spec: the entitlement resolver with the spec's
half-open membership window `asOf ∈ [validFrom, validTo)` — to be compared
with `resolvedTiers`, which the code builds from the closed window
`validFrom ≤ now ≤ validTo`. -/
def resolvedTiersSpecHalfOpen (db : DB) (userId : String) (asOf : ℤ) :
    List GroupLevel :=
  jsDedup (((db.userGroups.filter (fun ug =>
    ug.userId == userId && ug.isActive &&
    decide (ug.validFrom ≤ asOf) && decide (asOf < ug.validTo))).filterMap (fun ug =>
      (db.groups.find? (fun g => g.id == ug.groupId)).map (fun g => g.level))).flatMap
        LEVEL_HIERARCHY)

/-! ## Operation sequences -/

/-- A Book or Cancel request: member, event, request time. -/
inductive Op
  | bookOp (userId : String) (eventId : ℕ) (t : ℤ)
  | cancelOp (userId : String) (eventId : ℕ) (t : ℤ)
  deriving DecidableEq, Repr

/-- Run one request against the store; a rejection leaves the store as it
was (the transaction rolled back or was never opened). -/
def applyOp (db : DB) : Op → DB
  | .bookOp u e t =>
    match book db u e t with
    | .ok db' => db'
    | .error _ => db
  | .cancelOp u e t =>
    match cancel db u e t with
    | .ok db' => db'
    | .error _ => db

/-- Run a sequence of Book/Cancel requests in order. -/
def runOps (db : DB) (ops : List Op) : DB :=
  ops.foldl applyOp db

/-- Every subscription row has a non-negative credit balance. -/
def NonNegCredits (db : DB) : Prop :=
  ∀ s ∈ db.subs, 0 ≤ s.ingressi

/-- The subscriptions a store holds for one member. -/
def subsFor (db : DB) (userId : String) : List Subscription :=
  db.subs.filter (fun s => s.userId == userId)

/-- How many `ACTIVE` subscription rows a store holds for one member. -/
def activeCountFor (db : DB) (userId : String) : ℕ :=
  (db.subs.filter (fun s => s.userId == userId && s.status == .ACTIVE)).length

/-! ## The unguarded capacity race

The Book `$transaction` reads the event and the subscription with plain
`findUnique` / `findFirst` queries: despite the `Lock evento` and
`Lock subscription` comments no `FOR UPDATE` lock is taken, and no
`isolationLevel` is passed to `$transaction`, so the store runs the two
transactions at its default `READ COMMITTED` isolation.  Two concurrent Book
calls can therefore both read the same committed snapshot, both see the last
free slot, and then both commit: their writes touch different `EventSignup`
rows and different `Subscription` rows, so neither write blocks the other.
`dbRace` below is such a state: one `SCHEDULED` event with `maxSlots = 1` and
two members who each hold one credit and a valid `ALL`-tier membership. -/

/-- One event with a single slot, two members with credit and tier. -/
def dbRace : DB :=
  { events := [⟨1, 100, 1, .SCHEDULED, "TRAINING_ALL"⟩],
    subs := [⟨1, "m1", 0, 300000, 100, 1, "EUR", .ACTIVE⟩,
             ⟨2, "m2", 0, 300000, 100, 1, "EUR", .ACTIVE⟩],
    groups := [⟨1, "soci", .ALL⟩],
    userGroups := [⟨"m1", 1, 1, 0, 300000, true⟩,
                   ⟨"m2", 1, 2, 0, 300000, true⟩],
    signups := [] }

/-- A request time on the event's day, before the 18:00 cutoff. -/
def tRace : ℤ := mkTime 100 10 0

/-! ## Helper lemmas -/

/-- Membership is invariant under the first-occurrence deduplication. -/
lemma mem_jsDedup {x : GroupLevel} {l : List GroupLevel} : x ∈ jsDedup l ↔ x ∈ l := by
  have aux : ∀ (t acc : List GroupLevel),
      x ∈ t.foldl (fun acc a => if a ∈ acc then acc else acc ++ [a]) acc ↔
        x ∈ acc ∨ x ∈ t := by
    intro t
    induction t with
    | nil => intro acc; simp
    | cons a t ih =>
      intro acc
      simp only [List.foldl_cons]
      rw [ih]
      by_cases h : a ∈ acc
      · rw [if_pos h]
        simp only [List.mem_cons]
        constructor
        · rintro (hx | hx)
          · exact Or.inl hx
          · exact Or.inr (Or.inr hx)
        · rintro (hx | hx | hx)
          · exact Or.inl hx
          · exact Or.inl (hx ▸ h)
          · exact Or.inr hx
      · rw [if_neg h]
        simp only [List.mem_append, List.mem_cons, List.mem_singleton]
        tauto
  simpa [jsDedup] using aux l []

/-- No category rule of the table (nor the default) sets `requiredGroups`. -/
lemma ruleFor_requiredGroups (c : String) : (ruleFor c).requiredGroups = [] := by
  unfold ruleFor eventRules
  split <;> rfl

/-- What a successful `activeSub` lookup says about the returned row. -/
lemma activeSub_some {db : DB} {u : String} {now : ℤ} {sub : Subscription}
    (h : activeSub db u now = some sub) :
    sub ∈ db.subs ∧ sub.userId = u ∧ sub.status = .ACTIVE ∧
      sub.startDate ≤ now ∧ now ≤ sub.endDate := by
  have hmem := List.mem_of_find?_eq_some h
  have hp := List.find?_some h
  simp only [Bool.and_eq_true, beq_iff_eq, decide_eq_true_eq] at hp
  exact ⟨hmem, hp.1.1.1, hp.1.1.2, hp.1.2, hp.2⟩

/-- The route's Book pipeline equals the cascade in the spec's order: the
transaction's re-checks are redundant after the advisory checks pass on the
same store, the `requiredGroups` branch is dead, and the only check the
advisory pass lacks — the duplicate signup — sits last in both. -/
lemma book_eq_bookSpecOrdered (db : DB) (u : String) (e : ℕ) (now : ℤ) :
    book db u e now = bookSpecOrdered db u e now := by
  unfold book bookSpecOrdered canBookEventByEventId canBookEvent bookTx
  cases hev : findEvent db e with
  | none => rfl
  | some ev =>
    by_cases h1 : ev.date < dayOf now
    · simp [h1]
    · by_cases h2 : ev.date = dayOf now ∧ 18 ≤ hourOf now
      · simp [h1, h2]
      · by_cases h3 : ev.status ≠ EventStatus.SCHEDULED
        · simp [h1, h2, h3]
        · by_cases h4 : (signupCount db e : ℤ) ≥ ev.maxSlots
          · simp [h1, h2, h3, h4]
          · cases hsub : activeSub db u now with
            | none => simp [h1, h2, h3, h4, hsub]
            | some sub =>
              by_cases h5 : sub.ingressi ≤ 0
              · simp [h1, h2, h3, h4, hsub, h5]
              · by_cases h6 : ((ruleFor ev.categoryCode).requiresSubscription &&
                    !hasValidSubscription db u now) = true
                · simp [h1, h2, h3, h4, hsub, h5, h6]
                · simp [h1, h2, h3, h4, hsub, h5, h6, ruleFor_requiredGroups]
                  by_cases h7 : ∀ x ∈ (ruleFor ev.categoryCode).allowedLevels,
                      x ∉ resolvedTiers db u now
                  · rw [if_pos h7, if_pos h7]
                  · rw [if_neg h7, if_neg h7]

/-- A successful Book run pins down everything: the event was found and
bookable, the member's active subscription had credit, no signup existed, and
the result is exactly the two transaction writes. -/
lemma book_ok_inv {db : DB} {u : String} {e : ℕ} {now : ℤ} {db' : DB}
    (h : book db u e now = .ok db') :
    ∃ ev sub, findEvent db e = some ev ∧ ev.status = .SCHEDULED ∧
      (signupCount db e : ℤ) < ev.maxSlots ∧
      activeSub db u now = some sub ∧ 0 < sub.ingressi ∧
      hasSignup db u e = false ∧
      db' = applyBookWrites db u e sub.id := by
  rw [book_eq_bookSpecOrdered] at h
  unfold bookSpecOrdered at h
  cases hev : findEvent db e with
  | none => rw [hev] at h; simp at h
  | some ev =>
  rw [hev] at h
  dsimp only at h
  by_cases hd1 : ev.date < dayOf now
  · rw [if_pos hd1] at h; exact absurd h (by simp)
  rw [if_neg hd1] at h
  by_cases hd2 : ev.date = dayOf now ∧ 18 ≤ hourOf now
  · rw [if_pos hd2] at h; exact absurd h (by simp)
  rw [if_neg hd2] at h
  by_cases hd3 : ev.status ≠ EventStatus.SCHEDULED
  · rw [if_pos hd3] at h; exact absurd h (by simp)
  rw [if_neg hd3] at h
  by_cases hd4 : (signupCount db e : ℤ) ≥ ev.maxSlots
  · rw [if_pos hd4] at h; exact absurd h (by simp)
  rw [if_neg hd4] at h
  cases hsub : activeSub db u now with
  | none => rw [hsub] at h; simp at h
  | some sub =>
  rw [hsub] at h
  dsimp only at h
  by_cases h5 : sub.ingressi ≤ 0
  · rw [if_pos h5] at h; exact absurd h (by simp)
  rw [if_neg h5] at h
  by_cases h6 : ((ruleFor ev.categoryCode).requiresSubscription &&
      !hasValidSubscription db u now) = true
  · rw [if_pos h6] at h; exact absurd h (by simp)
  rw [if_neg h6] at h
  by_cases h7 : ¬ ((ruleFor ev.categoryCode).allowedLevels.any
      (fun l => (resolvedTiers db u now).contains l)) = true
  · rw [if_pos h7] at h; exact absurd h (by simp)
  rw [if_neg h7] at h
  by_cases h8 : hasSignup db u e = true
  · rw [if_pos h8] at h; exact absurd h (by simp)
  rw [if_neg h8] at h
  refine ⟨ev, sub, rfl, by simpa using hd3, by omega, rfl, by omega, by simpa using h8, ?_⟩
  exact ((Except.ok.injEq _ _).mp h).symm


lemma cancel_ok_inv {db : DB} {u : String} {e : ℕ} {now : ℤ} {db' : DB}
    (h : cancel db u e now = .ok db') :
    canCancelEventByEventId db e now = none ∧ hasSignup db u e = true ∧
      ∃ sub, db.subs.find? (fun s => s.userId == u && s.status == SubscriptionStatus.ACTIVE)
          = some sub ∧
        db' = { db with
          signups := db.signups.filter (fun sg => !(sg.userId == u && sg.eventId == e)),
          subs := db.subs.map (fun s =>
            if s.id == sub.id then { s with ingressi := s.ingressi + 1 } else s) } := by
  unfold cancel at h
  cases hcc : canCancelEventByEventId db e now with
  | some err => rw [hcc] at h; simp at h
  | none =>
  rw [hcc] at h
  dsimp only at h
  by_cases hs : hasSignup db u e = true
  · rw [if_neg (by simp [hs])] at h
    cases hfind : db.subs.find? (fun s => s.userId == u && s.status == SubscriptionStatus.ACTIVE) with
    | none => rw [hfind] at h; simp at h
    | some sub =>
      rw [hfind] at h
      exact ⟨rfl, hs, sub, rfl, ((Except.ok.injEq _ _).mp h).symm⟩
  · rw [if_pos (by simpa using hs)] at h
    simp at h

lemma map_eq_self {α : Type} {l : List α} {f : α → α} (h : ∀ x ∈ l, f x = x) :
    l.map f = l := by
  induction l with
  | nil => rfl
  | cons a t ih =>
    simp only [List.map_cons]
    rw [h a (List.mem_cons_self a t), ih (fun x hx => h x (List.mem_cons_of_mem a hx))]

lemma find?_map_of_unique {α : Type} {l : List α} {p q : α → Bool} {f : α → α} {s : α}
    (hfind : l.find? p = some s)
    (hcount : (l.filter q).length ≤ 1)
    (himp : ∀ x, p x = true → q x = true)
    (hf : ∀ x, q (f x) = q x) :
    (l.map f).find? q = some (f s) := by
  induction l with
  | nil => simp at hfind
  | cons a t ih =>
    by_cases hca : q a = true
    · have htnone : ∀ x ∈ t, ¬ q x = true := by
        intro x hx hpx
        have h1 : (List.filter q (a :: t)).length = (List.filter q t).length + 1 := by
          simp [List.filter_cons, hca]
        have h2 : 0 < (List.filter q t).length :=
          List.length_pos.mpr (List.ne_nil_of_mem (List.mem_filter.mpr ⟨hx, hpx⟩))
        omega
      by_cases hba : p a = true
      · have hsa : a = s := by
          rw [List.find?_cons_of_pos _ hba] at hfind
          exact (Option.some.injEq _ _).mp hfind
        subst hsa
        simp only [List.map_cons]
        rw [List.find?_cons_of_pos _ (by rw [hf]; exact hca)]
      · rw [List.find?_cons_of_neg _ (by simp [hba])] at hfind
        have hps := himp s (List.find?_some hfind)
        have hmem := List.mem_of_find?_eq_some hfind
        exact absurd hps (htnone s hmem)
    · have hba : ¬ p a = true := fun hb => hca (himp a hb)
      rw [List.find?_cons_of_neg _ hba] at hfind
      have hcount2 : (t.filter q).length ≤ 1 := by
        have : List.filter q (a :: t) = List.filter q t := by
          simp [List.filter_cons, hca]
        rw [this] at hcount
        exact hcount
      have hih := ih hfind hcount2
      simp only [List.map_cons]
      rw [List.find?_cons_of_neg _ (by rw [hf]; exact hca)]
      exact hih


lemma book_then_cancel_restores_aux (db : DB) (u : String) (e : ℕ) (t1 t2 : ℤ) (db1 : DB)
    (hone : activeCountFor db u ≤ 1)
    (hb : book db u e t1 = .ok db1)
    (hcc : canCancelEventByEventId db1 e t2 = none) :
    cancel db1 u e t2 = .ok db := by
  obtain ⟨ev, sub, hev, hsch, hcap, hsub, hpos, hnosig, rfl⟩ := book_ok_inv hb
  unfold cancel
  rw [hcc]
  dsimp only
  have hsig1 : hasSignup (applyBookWrites db u e sub.id) u e = true := by
    simp [hasSignup, applyBookWrites]
  rw [if_neg (by simp [hsig1])]
  have hfind : ((applyBookWrites db u e sub.id).subs.find?
      (fun s => s.userId == u && s.status == SubscriptionStatus.ACTIVE))
      = some { sub with ingressi := sub.ingressi - 1 } := by
    unfold applyBookWrites
    dsimp only
    have hres := find?_map_of_unique
      (p := fun s => s.userId == u && s.status == SubscriptionStatus.ACTIVE &&
        decide (s.startDate ≤ t1) && decide (t1 ≤ s.endDate))
      (q := fun s => s.userId == u && s.status == SubscriptionStatus.ACTIVE)
      (f := fun s => if s.id == sub.id then { s with ingressi := s.ingressi - 1 } else s)
      (s := sub) (l := db.subs)
      (by exact hsub)
      (by exact hone)
      (by
        intro x hx
        simp only [Bool.and_eq_true] at hx ⊢
        exact hx.1.1)
      (by
        intro x
        by_cases hx : x.id == sub.id <;> simp [hx])
    rw [hres]
    simp
  rw [hfind]
  dsimp only
  have hsignups : ((applyBookWrites db u e sub.id).signups.filter
      (fun sg => !(sg.userId == u && sg.eventId == e))) = db.signups := by
    unfold applyBookWrites
    dsimp only
    rw [List.filter_append]
    have h1 : db.signups.filter (fun sg => !(sg.userId == u && sg.eventId == e)) = db.signups := by
      apply List.filter_eq_self.mpr
      intro sg hsg
      have hall : ∀ x ∈ db.signups, ¬ (x.userId == u && x.eventId == e) = true := by
        simpa [hasSignup, List.any_eq_true] using hnosig
      rw [Bool.not_eq_true']
      exact Bool.eq_false_iff.mpr (hall sg hsg)
    have h2 : (([⟨u, e⟩] : List Signup).filter
        (fun sg => !(sg.userId == u && sg.eventId == e))) = [] := by
      simp
    rw [h1, h2, List.append_nil]
  have hsubs : ((applyBookWrites db u e sub.id).subs.map (fun s =>
      if s.id == ({ sub with ingressi := sub.ingressi - 1 } : Subscription).id then
        { s with ingressi := s.ingressi + 1 } else s)) = db.subs := by
    unfold applyBookWrites
    dsimp only
    rw [List.map_map]
    apply map_eq_self
    intro x _
    simp only [Function.comp]
    by_cases hx : x.id = sub.id
    · simp [hx, Int.sub_add_cancel]
      rw [← hx]
    · simp [hx]
  rw [hsignups, hsubs]
  rfl


lemma map_congr_mem {a b : Type} {l : List a} {f g : a → b}
    (h : ∀ x ∈ l, f x = g x) : l.map f = l.map g := by
  induction l with
  | nil => rfl
  | cons x t ih =>
    simp only [List.map_cons]
    rw [h x (List.mem_cons_self x t), ih (fun y hy => h y (List.mem_cons_of_mem x hy))]

lemma book_preserves_wf {db db' : DB} {u : String} {e : ℕ} {t : ℤ}
    (hnodup : (db.subs.map Subscription.id).Nodup) (hnn : NonNegCredits db)
    (h : book db u e t = .ok db') :
    (db'.subs.map Subscription.id).Nodup ∧ NonNegCredits db' := by
  obtain ⟨ev, sub, _, _, _, hsub, hpos, _, rfl⟩ := book_ok_inv h
  have hids : ((applyBookWrites db u e sub.id).subs.map Subscription.id)
      = db.subs.map Subscription.id := by
    unfold applyBookWrites
    dsimp only
    rw [List.map_map]
    apply map_congr_mem
    intro x _
    by_cases hx : x.id = sub.id <;> simp [hx]
  constructor
  · rw [hids]; exact hnodup
  · intro s hs
    unfold applyBookWrites at hs
    dsimp only at hs
    obtain ⟨x, hx, rfl⟩ := List.mem_map.mp hs
    by_cases hid : x.id = sub.id
    · have hxeq : x = sub := List.inj_on_of_nodup_map hnodup hx (activeSub_some hsub).1 hid
      subst hxeq
      rw [if_pos (by simp)]
      dsimp only
      omega
    · rw [if_neg (by simpa using hid)]
      exact hnn x hx

lemma cancel_preserves_wf {db db' : DB} {u : String} {e : ℕ} {t : ℤ}
    (hnodup : (db.subs.map Subscription.id).Nodup) (hnn : NonNegCredits db)
    (h : cancel db u e t = .ok db') :
    (db'.subs.map Subscription.id).Nodup ∧ NonNegCredits db' := by
  obtain ⟨_, _, sub, hfind, rfl⟩ := cancel_ok_inv h
  constructor
  · dsimp only
    rw [List.map_map]
    have : db.subs.map (Subscription.id ∘ fun s =>
        if s.id == sub.id then { s with ingressi := s.ingressi + 1 } else s)
        = db.subs.map Subscription.id := by
      apply map_congr_mem
      intro x _
      by_cases hx : x.id = sub.id <;> simp [hx]
    rw [this]
    exact hnodup
  · intro s hs
    dsimp only at hs
    obtain ⟨x, hx, rfl⟩ := List.mem_map.mp hs
    by_cases hid : x.id = sub.id
    · rw [if_pos (by simpa using hid)]
      dsimp only
      have := hnn x hx
      omega
    · rw [if_neg (by simpa using hid)]
      exact hnn x hx

lemma runOps_preserves_wf (ops : List Op) :
    ∀ db : DB, (db.subs.map Subscription.id).Nodup → NonNegCredits db →
      ((runOps db ops).subs.map Subscription.id).Nodup ∧ NonNegCredits (runOps db ops) := by
  induction ops with
  | nil => intro db h1 h2; exact ⟨h1, h2⟩
  | cons op t ih =>
    intro db h1 h2
    have hpres : ((applyOp db op).subs.map Subscription.id).Nodup ∧
        NonNegCredits (applyOp db op) := by
      cases op with
      | bookOp u e t2 =>
        dsimp only [applyOp]
        cases hb : book db u e t2 with
        | ok db2 => exact book_preserves_wf h1 h2 hb
        | error err => exact ⟨h1, h2⟩
      | cancelOp u e t2 =>
        dsimp only [applyOp]
        cases hc : cancel db u e t2 with
        | ok db2 => exact cancel_preserves_wf h1 h2 hc
        | error err => exact ⟨h1, h2⟩
    simpa [runOps, List.foldl_cons] using ih (applyOp db op) hpres.1 hpres.2


lemma createSub_ok_inv {db : DB} {u : String} {startDate endDate amount : ℤ}
    {currency : String} {status : SubscriptionStatus} {groups : List ℕ}
    {now : ℤ} {newId : ℕ} {db' : DB}
    (h : createSubscriptionWithGroups db u startDate endDate amount currency status
      groups now newId = .ok db') :
    db' = { db with
      subs := db.subs.map (fun s =>
          if s.userId == u && s.status == SubscriptionStatus.ACTIVE then
            { s with status := .CANCELLED, endDate := now }
          else s)
        ++ [⟨newId, u, startDate, endDate, amount, 32, currency, status⟩],
      userGroups := db.userGroups ++ groups.map (fun gid =>
        (⟨u, gid, newId, startDate, endDate, true⟩ : UserGroup)) } := by
  unfold createSubscriptionWithGroups at h
  by_cases h1 : ¬ (startDate < endDate)
  · rw [if_pos h1] at h; exact absurd h (by simp)
  rw [if_neg h1] at h
  by_cases h2 : ¬ (0 < amount)
  · rw [if_pos h2] at h; exact absurd h (by simp)
  rw [if_neg h2] at h
  by_cases h3 : ¬ ISO_CURRENCIES.contains currency = true
  · rw [if_pos h3] at h; exact absurd h (by simp)
  rw [if_neg h3] at h
  exact ((Except.ok.injEq _ _).mp h).symm

lemma createSub_active_unique {db : DB} {u : String} {startDate endDate amount : ℤ}
    {currency : String} {status : SubscriptionStatus} {groups : List ℕ}
    {now : ℤ} {newId : ℕ} {db' : DB}
    (h : createSubscriptionWithGroups db u startDate endDate amount currency status
      groups now newId = .ok db') :
    activeCountFor db' u ≤ 1 ∧
    (∀ v, v ≠ u → subsFor db' v = subsFor db v) ∧
    (∀ s ∈ db.subs, s.userId = u → s.status = .ACTIVE →
      ({ s with status := .CANCELLED, endDate := now } : Subscription) ∈ db'.subs) := by
  obtain rfl := createSub_ok_inv h
  refine ⟨?_, ?_, ?_⟩
  · unfold activeCountFor
    dsimp only
    rw [List.filter_append]
    have hmap : ((db.subs.map (fun s =>
        if s.userId == u && s.status == SubscriptionStatus.ACTIVE then
          { s with status := SubscriptionStatus.CANCELLED, endDate := now }
        else s)).filter (fun s => s.userId == u && s.status == SubscriptionStatus.ACTIVE))
        = [] := by
      rw [List.filter_eq_nil_iff]
      intro x hx
      obtain ⟨y, hy, rfl⟩ := List.mem_map.mp hx
      by_cases hp : (y.userId == u && y.status == SubscriptionStatus.ACTIVE) = true
      · rw [if_pos hp]; simp
      · rw [if_neg hp]; simpa using hp
    rw [hmap, List.nil_append]
    exact le_trans (List.length_filter_le _ _) (by simp)
  · intro v hv
    unfold subsFor
    dsimp only
    rw [List.filter_append]
    have huv : (u == v) = false := beq_eq_false_iff_ne.mpr (Ne.symm hv)
    have h2 : (([⟨newId, u, startDate, endDate, amount, 32, currency, status⟩] :
        List Subscription).filter (fun s => s.userId == v)) = [] := by
      simp [huv]
    rw [h2, List.append_nil, List.filter_map]
    have hpf : ∀ x ∈ db.subs, ((fun s => s.userId == v) ∘ (fun s =>
        if s.userId == u && s.status == SubscriptionStatus.ACTIVE then
          { s with status := SubscriptionStatus.CANCELLED, endDate := now }
        else s)) x = (fun s => s.userId == v) x := by
      intro x _
      by_cases hp : (x.userId == u && x.status == SubscriptionStatus.ACTIVE) = true <;>
        simp [Function.comp, hp]
    rw [List.filter_congr hpf]
    apply map_eq_self
    intro x hxmem
    have hxv : x.userId = v := by simpa using (List.mem_filter.mp hxmem).2
    rw [if_neg (by simp [hxv]; exact fun h => (hv h).elim)]
  · intro s hs hu hstat
    dsimp only
    apply List.mem_append_left
    have heq : (fun s : Subscription =>
        if s.userId == u && s.status == SubscriptionStatus.ACTIVE then
          { s with status := SubscriptionStatus.CANCELLED, endDate := now }
        else s) s = { s with status := SubscriptionStatus.CANCELLED, endDate := now } := by
      dsimp only
      rw [if_pos (by simp [hu, hstat])]
    exact heq ▸ List.mem_map_of_mem _ hs


/-! ## Claims -/

/-- C1 (counter-evidence): with one free slot and two credit-holding,
tier-holding members, each Book call individually succeeds against the shared
committed snapshot, and applying both transactions' writes leaves the event
with 2 signups against `maxSlots = 1`.  The transaction takes no row locks
(its reads are plain `findUnique`/`findFirst` despite the `Lock evento`
comments) and sets no isolation level, so under the store's default
`READ COMMITTED` isolation this interleaving of two concurrent Book calls is
allowed and overbooks the event. -/
theorem book_race_overbooks_capacity :
    book dbRace "m1" 1 tRace = .ok (applyBookWrites dbRace "m1" 1 1) ∧
    book dbRace "m2" 1 tRace = .ok (applyBookWrites dbRace "m2" 1 2) ∧
    (findEvent dbRace 1).map Event.maxSlots = some 1 ∧
    signupCount (applyBookWrites (applyBookWrites dbRace "m1" 1 1) "m2" 1 2) 1 = 2 := by
  refine ⟨by decide, by decide, by decide, by decide⟩

/-- C2 (counterexample): the `Subscription` table of the migration carries an
`ingressi` column but no `CHECK` constraint at all — its only constraints are
the primary key and the `userId` foreign key — so the persistence layer does
not enforce the non-negativity bound. -/
theorem subscription_schema_has_no_check_constraint :
    subscriptionTable.columns.any (fun c => c.name == "ingressi") = true ∧
    subscriptionTable.constraints.all (fun c => !c.isCheck) = true := by
  decide

/-- C2 (amended): through any sequence of Book/Cancel requests the credit
balances stay non-negative, because Book decrements only the subscription it
observed with a positive balance inside the same transaction and Cancel only
increments; the bound is maintained by this transactional guard alone, not by
a schema constraint. -/
theorem credits_never_negative (db : DB) (ops : List Op)
    (hids : (db.subs.map Subscription.id).Nodup) (hnn : NonNegCredits db) :
    NonNegCredits (runOps db ops) ∧
    (∀ u e t db', book db u e t = .ok db' →
      ∃ sub, activeSub db u t = some sub ∧ 0 < sub.ingressi ∧
        db'.subs = db.subs.map (fun s =>
          if s.id == sub.id then { s with ingressi := s.ingressi - 1 } else s)) := by
  refine ⟨(runOps_preserves_wf ops db hids hnn).2, ?_⟩
  intro u e t db' hb
  obtain ⟨ev, sub, _, _, _, hsub, hpos, _, rfl⟩ := book_ok_inv hb
  exact ⟨sub, hsub, hpos, rfl⟩

/-- C2 witness: a concrete Book-then-Cancel run keeps every balance ≥ 0. -/
theorem credits_never_negative_witness :
    NonNegCredits (runOps dbRace [Op.bookOp "m1" 1 tRace, Op.cancelOp "m1" 1 tRace]) :=
  (credits_never_negative dbRace [Op.bookOp "m1" 1 tRace, Op.cancelOp "m1" 1 tRace]
    (by decide) (by unfold NonNegCredits; decide)).1


/-- C3: for an existing event, the cutoff policy (for Book and for Cancel
alike) disallows the operation exactly when the event's civil date is before
today, or the event is today and the local hour is at least 18. -/
theorem cutoff_policy_characterization (db : DB) (e : ℕ) (now : ℤ) (ev : Event)
    (h : findEvent db e = some ev) :
    (canBookEventByEventId db e now = none ↔
      ¬ (ev.date < dayOf now ∨ (ev.date = dayOf now ∧ 18 ≤ hourOf now))) ∧
    (canCancelEventByEventId db e now = none ↔
      ¬ (ev.date < dayOf now ∨ (ev.date = dayOf now ∧ 18 ≤ hourOf now))) := by
  constructor
  · unfold canBookEventByEventId
    rw [h]
    dsimp only
    split_ifs with h1 h2 <;> simp_all
  · unfold canCancelEventByEventId
    rw [h]
    dsimp only
    split_ifs with h1 h2 <;> simp_all

/-- C3 witness: for the event dated day 100, booking at 17:59 local time on
day 100 passes the cutoff and at 18:00 it no longer does. -/
theorem cutoff_policy_characterization_witness :
    canBookEventByEventId dbRace 1 (mkTime 100 17 59) = none ∧
    canBookEventByEventId dbRace 1 (mkTime 100 18 0) ≠ none := by
  constructor
  · exact (cutoff_policy_characterization dbRace 1 (mkTime 100 17 59)
      ⟨1, 100, 1, .SCHEDULED, "TRAINING_ALL"⟩ (by decide)).1.mpr (by decide)
  · intro hn
    exact (cutoff_policy_characterization dbRace 1 (mkTime 100 18 0)
      ⟨1, 100, 1, .SCHEDULED, "TRAINING_ALL"⟩ (by decide)).1.mp hn (Or.inr (by decide))

/-- C4: a successful Book creates exactly one signup row for the pair,
decrements the `ingressi` of the member's currently-active subscription by
exactly one, and changes nothing else: events, groups, memberships stay
untouched, the signup list only grows by the one row, and every other
subscription row (and every other field of the decremented row) is as
before. -/
theorem book_success_frame (db : DB) (u : String) (e : ℕ) (now : ℤ) (db' : DB)
    (h : book db u e now = .ok db') :
    ∃ sub, activeSub db u now = some sub ∧ sub.userId = u ∧
      sub.status = .ACTIVE ∧ sub.startDate ≤ now ∧ now ≤ sub.endDate ∧ 0 < sub.ingressi ∧
      db'.events = db.events ∧ db'.groups = db.groups ∧ db'.userGroups = db.userGroups ∧
      db'.signups = db.signups ++ [⟨u, e⟩] ∧
      (db'.signups.filter (fun sg => sg.userId == u && sg.eventId == e)).length = 1 ∧
      db'.subs = db.subs.map (fun s =>
        if s.id == sub.id then { s with ingressi := s.ingressi - 1 } else s) := by
  obtain ⟨ev, sub, _, _, _, hsub, hpos, hnosig, rfl⟩ := book_ok_inv h
  obtain ⟨hmem, huid, hstat, h1, h2⟩ := activeSub_some hsub
  refine ⟨sub, hsub, huid, hstat, h1, h2, hpos, rfl, rfl, rfl, rfl, ?_, rfl⟩
  unfold applyBookWrites
  dsimp only
  rw [List.filter_append]
  have hnil : db.signups.filter (fun sg => sg.userId == u && sg.eventId == e) = [] := by
    rw [List.filter_eq_nil_iff]
    intro x hx
    have hall : ∀ x ∈ db.signups, ¬ (x.userId == u && x.eventId == e) = true := by
      simpa [hasSignup, List.any_eq_true] using hnosig
    exact hall x hx
  rw [hnil]
  simp

/-- C4 witness: a concrete successful Book yields exactly one signup row for
the pair. -/
theorem book_success_frame_witness :
    ((applyBookWrites dbRace "m1" 1 1).signups.filter
      (fun sg => sg.userId == "m1" && sg.eventId == 1)).length = 1 := by
  obtain ⟨sub, hs, hrest⟩ := book_success_frame dbRace "m1" 1 tRace
    (applyBookWrites dbRace "m1" 1 1) (by decide)
  exact hrest.2.2.2.2.2.2.2.2.2.1

/-- C5: the route's Book pipeline computes, on every store and input, the
same result as the cascade that checks the spec's preconditions in the
spec's order — cutoff, existence/`SCHEDULED`, capacity, credit, eligibility,
duplicate — rejecting with the first failing step's reason and leaving the
store unchanged on rejection. -/
theorem book_evaluates_preconditions_in_spec_order (db : DB) (u : String)
    (e : ℕ) (now : ℤ) :
    book db u e now = bookSpecOrdered db u e now :=
  book_eq_bookSpecOrdered db u e now

/-- C6: from a store where the member holds at most one `ACTIVE` subscription,
a successful Book followed by a Cancel that passes the cutoff restores the
store exactly — in particular the credit balance and the event's free-slot
count return to their pre-Book values. -/
theorem book_then_cancel_restores (db : DB) (u : String) (e : ℕ) (t1 t2 : ℤ)
    (db1 : DB)
    (hone : activeCountFor db u ≤ 1)
    (hb : book db u e t1 = .ok db1)
    (hcc : canCancelEventByEventId db1 e t2 = none) :
    cancel db1 u e t2 = .ok db :=
  book_then_cancel_restores_aux db u e t1 t2 db1 hone hb hcc

/-- C6 witness: the concrete round trip on `dbRace` restores `dbRace`. -/
theorem book_then_cancel_restores_witness :
    cancel (applyBookWrites dbRace "m1" 1 1) "m1" 1 tRace = .ok dbRace :=
  book_then_cancel_restores dbRace "m1" 1 tRace tRace
    (applyBookWrites dbRace "m1" 1 1)
    (by unfold activeCountFor; decide) (by decide) (by decide)


/-- The store `createSubscriptionWithGroups` produces from `dbRace` when
member `m1` renews: the old active subscription is cancelled with its
`endDate` clamped to now, the new subscription (id 3, the schema default of
32 credits) is appended, and a new membership row is added while the old ones
stay untouched. -/
def dbRenewed : DB :=
  { dbRace with
    subs := [⟨1, "m1", 0, tRace, 100, 1, "EUR", .CANCELLED⟩,
             ⟨2, "m2", 0, 300000, 100, 1, "EUR", .ACTIVE⟩,
             ⟨3, "m1", 0, 400000, 50, 32, "EUR", .ACTIVE⟩],
    userGroups := [⟨"m1", 1, 1, 0, 300000, true⟩,
                   ⟨"m2", 1, 2, 0, 300000, true⟩,
                   ⟨"m1", 1, 3, 0, 400000, true⟩] }

/-- C7: whatever the starting store, a successful `createSubscriptionWithGroups`
leaves the member with at most one `ACTIVE` subscription (every prior `ACTIVE`
row is moved to `CANCELLED` in the same transaction that inserts the new row),
and no other member's subscriptions change. -/
theorem createSubscription_at_most_one_active (db : DB) (u : String)
    (startDate endDate amount : ℤ) (currency : String)
    (status : SubscriptionStatus) (groups : List ℕ) (now : ℤ) (newId : ℕ)
    (db' : DB)
    (h : createSubscriptionWithGroups db u startDate endDate amount currency
      status groups now newId = .ok db') :
    activeCountFor db' u ≤ 1 ∧
    (∀ v, v ≠ u → subsFor db' v = subsFor db v) ∧
    (∀ s ∈ db.subs, s.userId = u → s.status = .ACTIVE →
      ({ s with status := .CANCELLED, endDate := now } : Subscription) ∈ db'.subs) :=
  createSub_active_unique h

/-- C7 witness: renewing `m1` on `dbRace` — which already has one `ACTIVE`
subscription — leaves `m1` with exactly one `ACTIVE` subscription. -/
theorem createSubscription_at_most_one_active_witness :
    activeCountFor dbRenewed "m1" ≤ 1 :=
  (createSubscription_at_most_one_active dbRace "m1" 0 400000 50 "EUR"
    SubscriptionStatus.ACTIVE [1] tRace 3 dbRenewed (by decide)).1

/-- C8 (counterexample): at `asOf` equal to a membership row's `validTo`, the
code still grants the row's tiers (its window test is the closed
`validFrom ≤ asOf ≤ validTo`), while the spec's half-open
`asOf ∈ [validFrom, validTo)` window grants nothing. -/
theorem resolvedTiers_differs_from_half_open_spec :
    GroupLevel.ALL ∈ resolvedTiers dbRace "m1" 300000 ∧
    GroupLevel.ALL ∉ resolvedTiersSpecHalfOpen dbRace "m1" 300000 := by
  decide

/-- C8 (amended): a tier is resolved for a member at `asOf` exactly when some
`isActive` membership row of the member whose closed `[validFrom, validTo]`
window contains `asOf` points to a group whose level's hierarchy expansion
contains that tier. -/
theorem resolvedTiers_closed_window_characterization (db : DB) (u : String)
    (asOf : ℤ) (lv : GroupLevel) :
    lv ∈ resolvedTiers db u asOf ↔
      ∃ ug ∈ db.userGroups, ug.userId = u ∧ ug.isActive = true ∧
        ug.validFrom ≤ asOf ∧ asOf ≤ ug.validTo ∧
        ∃ g, db.groups.find? (fun g => g.id == ug.groupId) = some g ∧
          lv ∈ LEVEL_HIERARCHY g.level := by
  simp only [resolvedTiers, mem_jsDedup, List.mem_flatMap, List.mem_filterMap,
    activeUserGroups, List.mem_filter, Option.map_eq_some', Bool.and_eq_true,
    beq_iff_eq, decide_eq_true_eq]
  constructor
  · rintro ⟨l2, ⟨ug, ⟨hm, ⟨⟨h1, h2⟩, h3⟩, h4⟩, g, hg, rfl⟩, hlv⟩
    exact ⟨ug, hm, h1, h2, h3, h4, g, hg, hlv⟩
  · rintro ⟨ug, hm, h1, h2, h3, h4, g, hg, hlv⟩
    exact ⟨g.level, ⟨ug, ⟨hm, ⟨⟨h1, h2⟩, h3⟩, h4⟩, g, hg, rfl⟩, hlv⟩

/-- C9 (counterexample): the second revision of the hierarchy table has no
entry for `DEPTH`, which is a value of the `GroupLevel` enum (its top-tier key
is spelled `DEEP` instead), so that revision is not a total function on the
enum. -/
theorem level_hierarchy_rev2_not_total :
    "DEPTH" ∈ groupLevelNames ∧ levelHierarchyRev2.lookup "DEPTH" = none := by
  decide

/-- C9 (amended): the first revision of `LEVEL_HIERARCHY` is a total function
on the `GroupLevel` enum mapping every tier to a non-empty tier set that
contains the tier itself, and it agrees with the typed expansion the booking
pipeline uses; the second revision is keyed on `DEEP`, which is not an enum
value, and so is not total on the enum. -/
theorem level_hierarchy_rev1_total_self_including :
    (groupLevelNames.all (fun n =>
      match levelHierarchyRev1.lookup n with
      | some e => !e.isEmpty && e.contains n
      | none => false)) = true ∧
    (groupLevels.all (fun t =>
      (LEVEL_HIERARCHY t).contains t && !(LEVEL_HIERARCHY t).isEmpty &&
      (levelHierarchyRev1.lookup t.name
        == some ((LEVEL_HIERARCHY t).map GroupLevel.name)))) = true ∧
    (groupLevelNames.all (fun n => (levelHierarchyRev2.lookup n).isSome)) = false := by
  decide

/-- C10: the subscription-requirement gate holds exactly when some `isActive`
membership row of the member has `now` inside its closed
`[validFrom, validTo]` window; it reads nothing but the membership table — in
particular changing the `Subscription` table arbitrarily (say, cancelling the
funding subscription) cannot change its verdict — and a renewal through
`createSubscriptionWithGroups` keeps every pre-existing membership row, so the
gate still passes after the funding subscription was cancelled by the
renewal. -/
theorem hasValidSubscription_characterization (db : DB) (u : String) (now : ℤ) :
    (hasValidSubscription db u now = true ↔
      ∃ ug ∈ db.userGroups, ug.userId = u ∧ ug.isActive = true ∧
        ug.validFrom ≤ now ∧ now ≤ ug.validTo) ∧
    (∀ subs2, hasValidSubscription { db with subs := subs2 } u now
      = hasValidSubscription db u now) ∧
    (∀ startDate endDate amount currency status groups newId db',
      createSubscriptionWithGroups db u startDate endDate amount currency
        status groups now newId = .ok db' →
      ∀ ug ∈ db.userGroups, ug ∈ db'.userGroups) := by
  refine ⟨?_, fun _ => rfl, ?_⟩
  · unfold hasValidSubscription
    rw [List.find?_isSome]
    constructor
    · rintro ⟨ug, hm, hp⟩
      simp only [Bool.and_eq_true, beq_iff_eq, decide_eq_true_eq] at hp
      exact ⟨ug, hm, hp.1.1.1, hp.2, hp.1.1.2, hp.1.2⟩
    · rintro ⟨ug, hm, h1, h2, h3, h4⟩
      exact ⟨ug, hm, by simp [h1, h2, h3, h4]⟩
  · intro startDate endDate amount currency status groups newId db' h ug hug
    obtain rfl := createSub_ok_inv h
    exact List.mem_append_left _ hug

/-- C10 witness: after `m1` renews on `dbRace` — the old subscription is now
`CANCELLED` — the old membership row is still present. -/
theorem hasValidSubscription_characterization_witness :
    (⟨"m1", 1, 1, 0, 300000, true⟩ : UserGroup) ∈ dbRenewed.userGroups :=
  (hasValidSubscription_characterization dbRace "m1" tRace).2.2
    0 400000 50 "EUR" SubscriptionStatus.ACTIVE [1] 3 dbRenewed (by decide)
    ⟨"m1", 1, 1, 0, 300000, true⟩ (by decide)

end BlueDream
